import Mathlib

set_option linter.unusedSectionVars false

/-!
# Productivity timer (`script.js`): a shallow embedding

The page script keeps one mutable `state` object, two script globals
(`rafRef`, `startTimestamp`) and talks to the browser through
`requestAnimationFrame` / `cancelAnimationFrame`, `performance.now()`,
`Date.now()` and the DOM.  Here the whole of that is one record, `World`,
and every handler of the script is a function on it.

Numbers.  JavaScript numbers are modelled by `JSNum α`: either `NaN` or an
element of a linearly ordered field `α` with a floor function (`ℚ` to run the
model, `ℝ` for statements over the reals).  Rounding of doubles and the two
infinities are outside the model; the timer code only divides by the
constant `1000`, and the curve sampler is used with non-zero denominators.
-/

namespace Pomodoro

/-! ## JavaScript numbers -/

/-- A JavaScript number: `NaN`, or an exact value. -/
inductive JSNum (α : Type) where
  | nan : JSNum α
  | num (a : α) : JSNum α
  deriving DecidableEq, Repr

namespace JSNum

variable {α : Type}

/-- The JavaScript `a - b`: `NaN` as soon as one operand is `NaN`. -/
def sub [Sub α] : JSNum α → JSNum α → JSNum α
  | num a, num b => num (a - b)
  | _, _ => nan

/-- A unary arithmetic operation with a numeric constant, such as `x * 1000`
or `x / 1000`: `NaN` stays `NaN`. -/
def map (f : α → α) : JSNum α → JSNum α
  | num a => num (f a)
  | nan => nan

/-- The call `Math.max(0, x)`: `NaN` when `x` is `NaN`. -/
def max0 [LinearOrderedField α] : JSNum α → JSNum α
  | num a => num (max 0 a)
  | nan => nan

/-- The call `Math.ceil(x)`. -/
def ceil [LinearOrderedField α] [FloorRing α] : JSNum α → JSNum α
  | num a => num ((⌈a⌉ : ℤ) : α)
  | nan => nan

/-- The comparison `x >= b`: false when `x` is `NaN`. -/
def ge [LinearOrderedField α] : JSNum α → α → Bool
  | num a, b => decide (b ≤ a)
  | nan, _ => false

/-- The conversion of an argument to a number: a missing argument
(`undefined`) converts to `NaN`. -/
def ofArg : Option α → JSNum α
  | some a => num a
  | none => nan

end JSNum

/-! ## Configuration constants -/

/-- The constant `DURATIONS`. -/
def DURATIONS : List ℕ := [120, 90, 60, 30, 15, 10, 5]

/-- The table `BREAK_RECOMMENDATIONS`; a key that is absent looks up to
`undefined`, here `none`. -/
def BREAK_RECOMMENDATIONS : ℕ → Option (List ℕ)
  | 120 => some [15, 20, 30]
  | 90 => some [15, 20]
  | 60 => some [10, 15]
  | 30 => some [5, 10]
  | 15 => some [3, 5]
  | 10 => some [2, 3]
  | 5 => some [1, 2]
  | _ => none

/-! ## Data model -/

/-- One entry of `state.tasks`. -/
structure Task where
  id : ℤ
  text : String
  done : Bool
  deriving DecidableEq, Repr

/-- One point `{ x, y }` of the productivity curve. -/
structure CurvePoint (α : Type) where
  x : α
  y : α

/-- The `state` object of the script.  `breakMinutes` is `none` for `null`. -/
structure State (α : Type) where
  selectedMinutes : ℕ
  breakMinutes : Option ℕ
  running : Bool
  secondsLeft : JSNum α
  elapsed : JSNum α
  tasks : List Task
  sessionsCompleted : ℕ
  curvePoints : List (CurvePoint α)

/-- The script state together with what it shares with the browser.

* `rafRef`, `startTimestamp`: the two script globals (`none` is `null`);
* `pending`: handles of the animation-frame callbacks that are requested and
  neither run nor cancelled (every one of them is `tick`);
* `nextHandle`: the handle the next `requestAnimationFrame` returns;
* `durationButtons`, `breakButtons`: the buttons that `renderDurationButtons`
  and `renderBreakButtons` last put on the page, by the value their click
  handler closes over;
* `newTaskInput`: the text of the task input field;
* `celebrations`: how many times `triggerCelebration` ran.

The remaining writes to the page (time text, ring, graph, task labels,
button captions) feed nothing back into the script and are left out. -/
structure World (α : Type) where
  state : State α
  rafRef : Option ℕ
  startTimestamp : JSNum α
  pending : List ℕ
  nextHandle : ℕ
  durationButtons : List ℕ
  breakButtons : List ℕ
  newTaskInput : String
  celebrations : ℕ

section Code

variable {α : Type} [LinearOrderedField α] [FloorRing α]

/-! ## The curve sampler -/

/-- The peak count chosen at the top of `sampleProductivityCurve`. -/
def peaksFor (minutes : ℕ) : ℕ :=
  if 90 ≤ minutes then 3 else if 60 ≤ minutes then 2 else 1

/-- The inner loop of `sampleProductivityCurve`: the sum over `p < peaks` of
`Math.exp(-Math.pow((t - center) / width, 2))`. -/
def bumpSum (exp : α → α) (tMax : α) (peaks : ℕ) (t : α) : α :=
  (List.range peaks).foldl
    (fun (y : α) (p : ℕ) =>
      let center : α := (((p : α) + 1) / ((peaks : α) + 1)) * tMax
      let width : α := tMax / ((peaks : α) * 3.5)
      y + exp (-(((t - center) / width) ^ 2)))
    0

/-- The body of the outer loop of `sampleProductivityCurve` for index `i`:
the point pushed before normalisation. -/
def rawPoint (exp : α → α) (minutes samples i : ℕ) : CurvePoint α :=
  let tMax : α := (minutes : α) * 60
  let t : α := ((i : α) / (samples : α)) * tMax
  let y : α := bumpSum exp tMax (peaksFor minutes) t
  { x := (i : α) / (samples : α), y := y * (1 - 0.15 * (t / tMax)) }

/-- The call `Math.max(...ys)` on a list that is not empty (the sampler's
loop always pushes at least one point). -/
def maxOf : List α → α
  | [] => 0
  | y :: ys => ys.foldl max y

/-- The function `sampleProductivityCurve(minutes, samples)`; `exp` stands
for `Math.exp`. -/
def sampleProductivityCurve (exp : α → α) (minutes samples : ℕ) :
    List (CurvePoint α) :=
  let points := (List.range (samples + 1)).map (rawPoint exp minutes samples)
  let ys := points.map (fun p => p.y)
  let maxY := maxOf ys
  points.map (fun p => { x := p.x, y := p.y / maxY })

/-! ## Rendering (the part that feeds back into the input surface) -/

/-- The function `renderDurationButtons`: one button per entry of
`DURATIONS`, each calling `handleDurationChange` with its entry. -/
def renderDurationButtons (w : World α) : World α :=
  { w with durationButtons := DURATIONS }

/-- The function `renderBreakButtons`: the container is emptied, then one
button per entry of `BREAK_RECOMMENDATIONS[state.selectedMinutes]` is added
(and the No-break button, which is always there).  When the lookup is
`undefined` the `forEach` throws and the container stays empty; every caller
has `render` or `renderBreakButtons` as its last statement, so nothing else
of the model is cut short by that exception. -/
def renderBreakButtons (w : World α) : World α :=
  match BREAK_RECOMMENDATIONS w.state.selectedMinutes with
  | some recommendations => { w with breakButtons := recommendations }
  | none => { w with breakButtons := [] }

/-- The function `render`. -/
def render (w : World α) : World α :=
  renderBreakButtons (renderDurationButtons w)

/-! ## Browser services -/

/-- The call `cancelAnimationFrame(h)`: the callback with that handle, if it
is still pending, is dropped; `null` and stale handles do nothing. -/
def cancelAnimationFrame (h : Option ℕ) (w : World α) : World α :=
  match h with
  | some k => { w with pending := w.pending.filter (fun j => j != k) }
  | none => w

/-- The assignment `rafRef = requestAnimationFrame(tick)`. -/
def requestAnimationFrame (w : World α) : World α :=
  { w with
    rafRef := some w.nextHandle
    pending := w.pending ++ [w.nextHandle]
    nextHandle := w.nextHandle + 1 }

/-- The function `triggerCelebration`, as a count of its calls. -/
def triggerCelebration (w : World α) : World α :=
  { w with celebrations := w.celebrations + 1 }

/-! ## Timer handlers -/

/-- The function `tick(now)`.  The argument is `none` when the function is
called without one, as `startStop` does.  The statements of the source are
followed in order: `w1` after the assignment of `state.elapsed`, `w2` after
that of `state.secondsLeft`, `w3` after the completion branch, and last the
request of the next frame if the timer still runs. -/
def tick (now : Option α) (w : World α) : World α :=
  if !w.state.running then w
  else
    let elapsedSec : JSNum α :=
      JSNum.max0 (((JSNum.ofArg now).sub w.startTimestamp).map (fun x => x / 1000))
    let w1 : World α := { w with state := { w.state with elapsed := elapsedSec } }
    let totalSeconds : α := (w1.state.selectedMinutes : α) * 60
    let left : JSNum α :=
      JSNum.max0 (JSNum.ceil ((JSNum.num totalSeconds).sub elapsedSec))
    let w2 : World α := { w1 with state := { w1.state with secondsLeft := left } }
    let w3 : World α :=
      if elapsedSec.ge totalSeconds then
        triggerCelebration
          { w2 with
            state :=
              { w2.state with
                running := false
                elapsed := JSNum.num totalSeconds
                secondsLeft := JSNum.num 0
                sessionsCompleted := w2.state.sessionsCompleted + 1 } }
      else w2
    if w3.state.running then requestAnimationFrame w3 else w3

/-- The function `resetTimer`; `exp` stands for `Math.exp`. -/
def resetTimer (exp : α → α) (w : World α) : World α :=
  let w1 : World α :=
    if w.state.running then
      cancelAnimationFrame w.rafRef { w with state := { w.state with running := false } }
    else w
  render
    { w1 with
      state :=
        { w1.state with
          secondsLeft := JSNum.num ((w1.state.selectedMinutes : α) * 60)
          elapsed := JSNum.num 0
          breakMinutes := none
          curvePoints := sampleProductivityCurve exp w1.state.selectedMinutes 200 } }

/-- The function `handleDurationChange(minutes)`. -/
def handleDurationChange (exp : α → α) (minutes : ℕ) (w : World α) : World α :=
  resetTimer exp { w with state := { w.state with selectedMinutes := minutes } }

/-- The function `startStop`; `perfNow` is what `performance.now()` returns
during the call. -/
def startStop (perfNow : α) (w : World α) : World α :=
  let w1 : World α := { w with state := { w.state with running := !w.state.running } }
  if w1.state.running then
    tick none
      { w1 with
        startTimestamp :=
          (JSNum.num perfNow).sub (w1.state.elapsed.map (fun x => x * 1000)) }
  else
    cancelAnimationFrame w1.rafRef w1

/-- The click handler of the break button for `b` minutes. -/
def selectBreak (b : ℕ) (w : World α) : World α :=
  renderBreakButtons { w with state := { w.state with breakMinutes := some b } }

/-- The click handler of the No-break button. -/
def selectNoBreak (w : World α) : World α :=
  renderBreakButtons { w with state := { w.state with breakMinutes := some 0 } }

/-- The browser runs one pending animation-frame callback: if the handle is
still pending it is taken off the list and `tick` is called with the frame
timestamp. -/
def runCallback (now : α) (w : World α) (h : ℕ) : World α :=
  if h ∈ w.pending then tick (some now) { w with pending := w.pending.erase h }
  else w

/-- One animation frame with timestamp `now`: the callbacks that were pending
when the frame began are run in order; callbacks requested meanwhile wait for
the next frame. -/
def frame (now : α) (w : World α) : World α :=
  w.pending.foldl (runCallback now) w

/-! ## Task list -/

/-- The characters `String.prototype.trim` removes: ECMAScript white space
(tab, vertical tab, form feed, space, no-break space, the byte order mark and
the space separators of Unicode) and line terminators. -/
def isTrimChar (c : Char) : Bool :=
  c.toNat ∈ [0x09, 0x0A, 0x0B, 0x0C, 0x0D, 0x20, 0xA0, 0x1680,
    0x2000, 0x2001, 0x2002, 0x2003, 0x2004, 0x2005, 0x2006, 0x2007, 0x2008,
    0x2009, 0x200A, 0x2028, 0x2029, 0x202F, 0x205F, 0x3000, 0xFEFF]

/-- Trimming on the list of characters: the leading run of trim characters
is dropped, then the trailing one. -/
def trimChars (l : List Char) : List Char :=
  ((l.dropWhile isTrimChar).reverse.dropWhile isTrimChar).reverse

/-- The method `String.prototype.trim`. -/
def jsTrim (s : String) : String :=
  String.mk (trimChars s.data)

/-- The function `addTask`; `dateNow` is what `Date.now()` returns during the
call.  An empty string is the only falsy string. -/
def addTask (dateNow : ℤ) (w : World α) : World α :=
  let text := jsTrim w.newTaskInput
  if text = "" then w
  else
    { w with
      state :=
        { w.state with
          tasks := w.state.tasks ++ [{ id := dateNow, text := text, done := false }] }
      newTaskInput := "" }

/-- The function `toggleTask(id)`. -/
def toggleTask (id : ℤ) (w : World α) : World α :=
  { w with
    state :=
      { w.state with
        tasks :=
          w.state.tasks.map
            (fun task => if task.id = id then { task with done := !task.done } else task) } }

/-- The user edits the task input field. -/
def typeTask (text : String) (w : World α) : World α :=
  { w with newTaskInput := text }

/-! ## Initialisation and the input surface -/

/-- The `state` literal and the globals as the script declares them, on a
page whose button containers and input field are still empty. -/
def initialWorld : World α :=
  { state :=
      { selectedMinutes := 30
        breakMinutes := none
        running := false
        secondsLeft := JSNum.num (30 * 60)
        elapsed := JSNum.num 0
        tasks :=
          [{ id := 1, text := "Read article", done := false },
           { id := 2, text := "Write report", done := false }]
        sessionsCompleted := 0
        curvePoints := [] }
    rafRef := none
    startTimestamp := JSNum.num 0
    pending := []
    nextHandle := 1
    durationButtons := []
    breakButtons := []
    newTaskInput := ""
    celebrations := 0 }

/-- The function `init`, run once when the page has loaded: the listeners
are bound and `resetTimer` is called. -/
def init (exp : α → α) : World α :=
  resetTimer exp initialWorld

/-- What can happen to the page after `init`: a click on one of the buttons,
typing in the task field, submitting it (Add button or Enter), a change of a
task checkbox, or an animation frame.  The arguments are what the environment
supplies: the clock readings and the text typed. -/
inductive Action (α : Type) where
  | clickDuration (d : ℕ)
  | clickBreak (b : ℕ)
  | clickNoBreak
  | clickStartStop (perfNow : α)
  | clickReset
  | typeTask (text : String)
  | submitTask (dateNow : ℤ)
  | toggleTask (id : ℤ)
  | animationFrame (now : α)

/-- The effect of an action; `none` when the page offers no such button.
A checkbox exists only for the tasks of the list, and `toggleTask` does
nothing for any other identifier, so the identifier is left unconstrained. -/
def step (exp : α → α) : Action α → World α → Option (World α)
  | .clickDuration d, w =>
      if d ∈ w.durationButtons then some (handleDurationChange exp d w) else none
  | .clickBreak b, w =>
      if b ∈ w.breakButtons then some (selectBreak b w) else none
  | .clickNoBreak, w => some (selectNoBreak w)
  | .clickStartStop perfNow, w => some (startStop perfNow w)
  | .clickReset, w => some (resetTimer exp w)
  | .typeTask text, w => some (typeTask text w)
  | .submitTask dateNow, w => some (addTask dateNow w)
  | .toggleTask id, w => some (toggleTask id w)
  | .animationFrame now, w => some (frame now w)

/-- The worlds the page can be in: `init`, then any actions. -/
inductive Reachable (exp : α → α) : World α → Prop where
  | init : Reachable exp (init exp)
  | step {w w' : World α} (a : Action α) :
      Reachable exp w → step exp a w = some w' → Reachable exp w'

end Code

/-- A rational stand-in for `Math.exp`, to run the model on concrete inputs:
the degree-six Taylor polynomial, inverted for negative arguments.  No
statement below depends on its values. -/
def approxExp (x : ℚ) : ℚ :=
  let p : ℚ → ℚ := fun y =>
    1 + y + y ^ 2 / 2 + y ^ 3 / 6 + y ^ 4 / 24 + y ^ 5 / 120 + y ^ 6 / 720
  if 0 ≤ x then p x else 1 / p (-x)

/-! ## Invariants of the page -/

/-- The state of the animation-frame loop: either nothing is pending and the
timer is paused, or exactly one callback is pending, `rafRef` holds its
handle, and the timer is running. -/
def PendingInv {α : Type} (w : World α) : Prop :=
  (w.pending = [] ∧ w.state.running = false) ∨
    (∃ h : ℕ, w.pending = [h] ∧ w.rafRef = some h ∧ w.state.running = true)

/-- The state of the two selectors: the duration buttons on the page are
those of `DURATIONS`, the selected duration is one of them, its break
recommendations exist and are the break buttons on the page, and the break
selection is `null`, the No-break value `0`, or one of the recommendations. -/
def SelectionInv {α : Type} (w : World α) : Prop :=
  w.durationButtons = DURATIONS ∧
  w.state.selectedMinutes ∈ DURATIONS ∧
  ∃ recommendations : List ℕ,
    BREAK_RECOMMENDATIONS w.state.selectedMinutes = some recommendations ∧
    w.breakButtons = recommendations ∧
    (w.state.breakMinutes = none ∨ w.state.breakMinutes = some 0 ∨
      ∃ b ∈ recommendations, w.state.breakMinutes = some b)

/-- The state of the countdown: `elapsed` and `secondsLeft` are both `NaN`,
or `elapsed` is a number `e` of `[0, selectedMinutes * 60]` and `secondsLeft`
is `ceil(max(0, selectedMinutes * 60 - e))`. -/
def TimerInv {α : Type} [LinearOrderedField α] [FloorRing α] (w : World α) : Prop :=
  (w.state.elapsed = JSNum.nan ∧ w.state.secondsLeft = JSNum.nan) ∨
    ∃ e : α, w.state.elapsed = JSNum.num e ∧ 0 ≤ e ∧
      e ≤ (w.state.selectedMinutes : α) * 60 ∧
      w.state.secondsLeft =
        JSNum.num ((⌈max 0 ((w.state.selectedMinutes : α) * 60 - e)⌉ : ℤ) : α)

/-! ## A concrete running timer -/

/-- A five-minute session that was started at clock reading `0` and has one
animation-frame callback pending; no session is completed yet. -/
def fiveMinuteRun : World ℚ :=
  { state :=
      { selectedMinutes := 5
        breakMinutes := none
        running := true
        secondsLeft := JSNum.num 300
        elapsed := JSNum.num 0
        tasks := []
        sessionsCompleted := 0
        curvePoints := [] }
    rafRef := some 1
    startTimestamp := JSNum.num 0
    pending := [1]
    nextHandle := 2
    durationButtons := DURATIONS
    breakButtons := [1, 2]
    newTaskInput := ""
    celebrations := 0 }

section Timer

variable {α : Type} [LinearOrderedField α] [FloorRing α]

/-- The function `tick` in two branches: a paused timer is left alone; a
running one either completes (and requests nothing) or stores the elapsed
and remaining time and requests the next frame. -/
theorem tick_eq (now : Option α) (w : World α) :
    tick now w =
      if !w.state.running then w
      else if (JSNum.max0 (((JSNum.ofArg now).sub w.startTimestamp).map
          (fun x => x / 1000))).ge ((w.state.selectedMinutes : α) * 60) then
        triggerCelebration
          { w with
            state :=
              { w.state with
                running := false
                elapsed := JSNum.num ((w.state.selectedMinutes : α) * 60)
                secondsLeft := JSNum.num 0
                sessionsCompleted := w.state.sessionsCompleted + 1 } }
      else
        requestAnimationFrame
          { w with
            state :=
              { w.state with
                elapsed := JSNum.max0 (((JSNum.ofArg now).sub w.startTimestamp).map
                  (fun x => x / 1000))
                secondsLeft := JSNum.max0 (JSNum.ceil ((JSNum.num
                  ((w.state.selectedMinutes : α) * 60)).sub (JSNum.max0
                    (((JSNum.ofArg now).sub w.startTimestamp).map
                      (fun x => x / 1000))))) } } := by
  unfold tick
  cases hr : w.state.running
  · simp
  · by_cases hge : (JSNum.max0 (((JSNum.ofArg now).sub w.startTimestamp).map
        (fun x => x / 1000))).ge ((w.state.selectedMinutes : α) * 60) = true
    · simp [hge, triggerCelebration]
    · simp [hge, hr]

/-- C1: a tick of a running timer at a timestamp `now` with
`(now - startTimestamp) / 1000 >= selectedMinutes * 60` adds exactly one to
`sessionsCompleted`, sets `running` to false, `secondsLeft` to `0` and
`elapsed` to `selectedMinutes * 60`, triggers the celebration once and
requests no further frame (the pending list, `rafRef` and the handle counter
are as before). -/
theorem tick_completes_session (w : World α) (now : α)
    (hrun : w.state.running = true)
    (hdone : (((JSNum.num now).sub w.startTimestamp).map (fun x => x / 1000)).ge
        ((w.state.selectedMinutes : α) * 60) = true) :
    (tick (some now) w).state.sessionsCompleted = w.state.sessionsCompleted + 1 ∧
    (tick (some now) w).state.running = false ∧
    (tick (some now) w).state.secondsLeft = JSNum.num 0 ∧
    (tick (some now) w).state.elapsed = JSNum.num ((w.state.selectedMinutes : α) * 60) ∧
    (tick (some now) w).celebrations = w.celebrations + 1 ∧
    (tick (some now) w).pending = w.pending ∧
    (tick (some now) w).rafRef = w.rafRef ∧
    (tick (some now) w).nextHandle = w.nextHandle := by
  cases hst : w.startTimestamp with
  | nan => simp [hst, JSNum.sub, JSNum.map, JSNum.ge] at hdone
  | num s =>
    simp only [hst, JSNum.sub, JSNum.map, JSNum.ge, decide_eq_true_eq] at hdone
    have hmax : (w.state.selectedMinutes : α) * 60 ≤ max 0 ((now - s) / 1000) :=
      le_max_of_le_right hdone
    simp [tick_eq, hrun, hst, JSNum.ofArg, JSNum.sub, JSNum.map, JSNum.max0, JSNum.ge,
      triggerCelebration, hmax]

/-- C1, the example of the specification: five minutes, a tick at 300 s, the
counter goes from 0 to 1 and the timer is paused with nothing left. -/
theorem tick_completes_session_witness :
    fiveMinuteRun.state.sessionsCompleted = 0 ∧
    (tick (some 300000) fiveMinuteRun).state.sessionsCompleted = 1 ∧
    (tick (some 300000) fiveMinuteRun).state.running = false ∧
    (tick (some 300000) fiveMinuteRun).state.secondsLeft = JSNum.num 0 ∧
    (tick (some 300000) fiveMinuteRun).state.elapsed = JSNum.num 300 ∧
    (tick (some 300000) fiveMinuteRun).pending = [1] := by
  have h := tick_completes_session fiveMinuteRun 300000 rfl
    (by norm_num [fiveMinuteRun, JSNum.sub, JSNum.map, JSNum.ge])
  refine ⟨rfl, ?_, h.2.1, h.2.2.1, ?_, ?_⟩
  · simpa [fiveMinuteRun] using h.1
  · have h4 := h.2.2.2.1
    norm_num [fiveMinuteRun] at h4 ⊢
    exact h4
  · simpa [fiveMinuteRun] using h.2.2.2.2.2.1

/-- C5: `resetTimer` from any state gives `running = false`, `elapsed = 0`,
`secondsLeft = selectedMinutes * 60`, `breakMinutes = null` and a freshly
sampled curve, and keeps `selectedMinutes`, `tasks` and `sessionsCompleted`;
`handleDurationChange d` is `resetTimer` after `selectedMinutes` is set to
`d`, so it gives the same with `selectedMinutes = d`. -/
theorem resetTimer_effect (exp : α → α) (w : World α) (d : ℕ) :
    ((resetTimer exp w).state.running = false ∧
      (resetTimer exp w).state.elapsed = JSNum.num 0 ∧
      (resetTimer exp w).state.secondsLeft =
        JSNum.num ((w.state.selectedMinutes : α) * 60) ∧
      (resetTimer exp w).state.breakMinutes = none ∧
      (resetTimer exp w).state.curvePoints =
        sampleProductivityCurve exp w.state.selectedMinutes 200 ∧
      (resetTimer exp w).state.selectedMinutes = w.state.selectedMinutes ∧
      (resetTimer exp w).state.tasks = w.state.tasks ∧
      (resetTimer exp w).state.sessionsCompleted = w.state.sessionsCompleted) ∧
    ((handleDurationChange exp d w).state.running = false ∧
      (handleDurationChange exp d w).state.elapsed = JSNum.num 0 ∧
      (handleDurationChange exp d w).state.secondsLeft = JSNum.num ((d : α) * 60) ∧
      (handleDurationChange exp d w).state.breakMinutes = none ∧
      (handleDurationChange exp d w).state.curvePoints =
        sampleProductivityCurve exp d 200 ∧
      (handleDurationChange exp d w).state.selectedMinutes = d ∧
      (handleDurationChange exp d w).state.tasks = w.state.tasks ∧
      (handleDurationChange exp d w).state.sessionsCompleted =
        w.state.sessionsCompleted) ∧
    handleDurationChange exp d w =
      resetTimer exp { w with state := { w.state with selectedMinutes := d } } := by
  refine ⟨?_, ?_, rfl⟩
  · cases hr : w.state.running <;> cases hraf : w.rafRef <;>
      simp [resetTimer, render, renderBreakButtons, renderDurationButtons,
        cancelAnimationFrame, hr, hraf] <;>
      split <;> simp
  · cases hr : w.state.running <;> cases hraf : w.rafRef <;>
      simp [handleDurationChange, resetTimer, render, renderBreakButtons,
        renderDurationButtons, cancelAnimationFrame, hr, hraf] <;>
      split <;> simp

end Timer

section Tasks

variable {α : Type} [LinearOrderedField α] [FloorRing α]

/-- Trimming leaves nothing exactly when every character is a trim
character. -/
theorem trimChars_eq_nil_iff (l : List Char) :
    trimChars l = [] ↔ ∀ c ∈ l, isTrimChar c = true := by
  unfold trimChars
  rw [List.reverse_eq_nil_iff, List.dropWhile_eq_nil_iff]
  constructor
  · intro h
    rw [← List.dropWhile_eq_nil_iff]
    by_contra hne
    have hhead := List.head_dropWhile_not isTrimChar l hne
    have hmem : (List.dropWhile isTrimChar l).head hne ∈
        (List.dropWhile isTrimChar l).reverse :=
      List.mem_reverse.mpr (List.head_mem hne)
    rw [h _ hmem] at hhead
    exact absurd hhead (by simp)
  · intro h
    rw [(List.dropWhile_eq_nil_iff).mpr h]
    simp

/-- The trimmed text is empty exactly when the text is empty or made of
white space only. -/
theorem jsTrim_eq_empty_iff (s : String) :
    jsTrim s = "" ↔ s.data.all isTrimChar = true := by
  have h : jsTrim s = "" ↔ trimChars s.data = [] := by
    unfold jsTrim
    constructor
    · intro h
      have := congrArg String.data h
      simpa using this
    · intro h
      rw [h]
  rw [h, trimChars_eq_nil_iff, List.all_eq_true]

/-- C7: when the text of the input field is empty or white space only,
`addTask` changes nothing at all; for every other text it appends exactly one
task at the end of the list, with the trimmed text, `done = false` and the
clock reading as identifier, and the tasks that were there stay as they were
and in the same order. -/
theorem addTask_tasks (dateNow : ℤ) (w : World α) :
    (addTask dateNow w).state.tasks =
      (if w.newTaskInput.data.all isTrimChar = true then w.state.tasks
       else w.state.tasks ++
         [{ id := dateNow, text := jsTrim w.newTaskInput, done := false }]) ∧
    (if w.newTaskInput.data.all isTrimChar = true then addTask dateNow w = w
     else (addTask dateNow w).state.tasks.length = w.state.tasks.length + 1) := by
  by_cases h : w.newTaskInput.data.all isTrimChar = true
  · have ht : jsTrim w.newTaskInput = "" := (jsTrim_eq_empty_iff _).mpr h
    simp only [h, if_true]
    simp [addTask, ht]
  · have ht : jsTrim w.newTaskInput ≠ "" := fun e => h ((jsTrim_eq_empty_iff _).mp e)
    simp only [h]
    simp [addTask, ht]

/-- C7, the examples of the specification: two spaces leave the initial list
as it is, and `Write spec` appends one task that is not done. -/
theorem addTask_tasks_examples :
    (addTask 1700000000000 (typeTask "  " (initialWorld : World ℚ))).state.tasks =
      [{ id := 1, text := "Read article", done := false },
       { id := 2, text := "Write report", done := false }] ∧
    (addTask 1700000000000 (typeTask "Write spec" (initialWorld : World ℚ))).state.tasks =
      [{ id := 1, text := "Read article", done := false },
       { id := 2, text := "Write report", done := false },
       { id := 1700000000000, text := "Write spec", done := false }] := by
  constructor
  · rw [(addTask_tasks 1700000000000 (typeTask "  " (initialWorld : World ℚ))).1]
    have h : (typeTask "  " (initialWorld : World ℚ)).newTaskInput.data.all isTrimChar
        = true := by decide
    rw [if_pos h]
    rfl
  · rw [(addTask_tasks 1700000000000
      (typeTask "Write spec" (initialWorld : World ℚ))).1]
    have h : ¬ ((typeTask "Write spec" (initialWorld : World ℚ)).newTaskInput.data.all
        isTrimChar = true) := by decide
    rw [if_neg h]
    have ht : jsTrim (typeTask "Write spec" (initialWorld : World ℚ)).newTaskInput
        = "Write spec" := by decide
    rw [ht]
    rfl

/-- The function `toggleTask` keeps the identifiers and their order. -/
theorem toggleTask_ids (id : ℤ) (w : World α) :
    (toggleTask id w).state.tasks.map (fun task => task.id) =
      w.state.tasks.map (fun task => task.id) := by
  simp only [toggleTask, List.map_map]
  apply List.map_congr_left
  intro task _
  simp only [Function.comp]
  split_ifs <;> rfl

/-- The function `addTask` keeps the identifiers distinct as long as the
clock reading is not already an identifier of the list. -/
theorem addTask_ids_nodup (dateNow : ℤ) (w : World α)
    (hnodup : (w.state.tasks.map (fun task => task.id)).Nodup)
    (hfresh : dateNow ∉ w.state.tasks.map (fun task => task.id)) :
    ((addTask dateNow w).state.tasks.map (fun task => task.id)).Nodup := by
  simp only [addTask]
  split_ifs
  · exact hnodup
  · simp only [List.map_append, List.map_cons, List.map_nil]
    rw [List.nodup_append]
    refine ⟨hnodup, List.nodup_singleton _, ?_⟩
    intro a ha hb
    rw [List.mem_singleton] at hb
    subst hb
    exact hfresh ha

/-- C8, evaluated: two tasks submitted at the same reading of `Date.now()`
get the same identifier, so the list of identifiers has a repetition; a
change of the checkbox of one of them then flips both. -/
theorem addTask_same_reading_duplicates_id :
    ((addTask 1700000000000 (typeTask "b"
        (addTask 1700000000000 (typeTask "a" (init approxExp))))).state.tasks.map
      (fun task => task.id)) = [1, 2, 1700000000000, 1700000000000] ∧
    ¬ ((addTask 1700000000000 (typeTask "b"
        (addTask 1700000000000 (typeTask "a" (init approxExp))))).state.tasks.map
      (fun task => task.id)).Nodup ∧
    ((toggleTask 1700000000000 (addTask 1700000000000 (typeTask "b"
        (addTask 1700000000000 (typeTask "a" (init approxExp)))))).state.tasks.map
      (fun task => task.done)) = [false, false, true, true] := by
  have ha : jsTrim "a" ≠ "" := by decide
  have hb : jsTrim "b" ≠ "" := by decide
  have hinit : (init approxExp).state.tasks =
      [{ id := 1, text := "Read article", done := false },
       { id := 2, text := "Write report", done := false }] := by
    cases hr : (initialWorld : World ℚ).state.running <;>
      simp [init, resetTimer, render, renderBreakButtons, renderDurationButtons,
        initialWorld, BREAK_RECOMMENDATIONS]
  have h : ((addTask 1700000000000 (typeTask "b"
        (addTask 1700000000000 (typeTask "a" (init approxExp))))).state.tasks.map
      (fun task => task.id)) = [1, 2, 1700000000000, 1700000000000] := by
    simp [addTask, typeTask, ha, hb, hinit]
  refine ⟨h, ?_, ?_⟩
  · rw [h]
    decide
  · simp [toggleTask, addTask, typeTask, ha, hb, hinit]

end Tasks

section Loop

variable {α : Type} [LinearOrderedField α] [FloorRing α]

/-- A tick leaves the two selectors and the buttons on the page alone. -/
theorem tick_selection (now : Option α) (w : World α) :
    (tick now w).state.selectedMinutes = w.state.selectedMinutes ∧
    (tick now w).state.breakMinutes = w.state.breakMinutes ∧
    (tick now w).durationButtons = w.durationButtons ∧
    (tick now w).breakButtons = w.breakButtons := by
  simp only [tick_eq]
  split_ifs <;> simp [triggerCelebration, requestAnimationFrame]

/-- An animation frame leaves the two selectors and the buttons alone. -/
theorem frame_selection (now : α) (w : World α) :
    (frame now w).state.selectedMinutes = w.state.selectedMinutes ∧
    (frame now w).state.breakMinutes = w.state.breakMinutes ∧
    (frame now w).durationButtons = w.durationButtons ∧
    (frame now w).breakButtons = w.breakButtons := by
  have key : ∀ (l : List ℕ) (v : World α),
      (l.foldl (runCallback now) v).state.selectedMinutes = v.state.selectedMinutes ∧
      (l.foldl (runCallback now) v).state.breakMinutes = v.state.breakMinutes ∧
      (l.foldl (runCallback now) v).durationButtons = v.durationButtons ∧
      (l.foldl (runCallback now) v).breakButtons = v.breakButtons := by
    intro l
    induction l with
    | nil => intro v; simp
    | cons h t ih =>
      intro v
      have hv : (runCallback now v h).state.selectedMinutes = v.state.selectedMinutes ∧
          (runCallback now v h).state.breakMinutes = v.state.breakMinutes ∧
          (runCallback now v h).durationButtons = v.durationButtons ∧
          (runCallback now v h).breakButtons = v.breakButtons := by
        unfold runCallback
        split_ifs
        · exact tick_selection (some now) _
        · exact ⟨rfl, rfl, rfl, rfl⟩
      have ht := ih (runCallback now v h)
      simp only [List.foldl_cons]
      exact ⟨ht.1.trans hv.1, ht.2.1.trans hv.2.1, ht.2.2.1.trans hv.2.2.1,
        ht.2.2.2.trans hv.2.2.2⟩
  exact key w.pending w

/-- A tick of a running timer whose callback list is empty ends in a state
of the loop invariant: the session is over and nothing is pending, or one
callback is pending and `rafRef` holds it. -/
theorem tick_pendingInv (now : Option α) (w : World α)
    (hp : w.pending = []) (hrun : w.state.running = true) :
    PendingInv (tick now w) := by
  simp only [tick_eq, hrun]
  split_ifs with h1 h2
  · simp at h1
  · left
    simp [triggerCelebration, hp]
  · right
    exact ⟨w.nextHandle, by simp [requestAnimationFrame, hp],
      by simp [requestAnimationFrame], by simp [requestAnimationFrame, hrun]⟩

/-- A tick of a paused timer changes nothing. -/
theorem tick_paused (now : Option α) (w : World α) (hrun : w.state.running = false) :
    tick now w = w := by
  simp [tick_eq, hrun]

/-- An animation frame with nothing pending changes nothing. -/
theorem frame_nothing_pending (now : α) (w : World α) (hp : w.pending = []) :
    frame now w = w := by
  simp [frame, hp]

/-- The function `startStop` keeps the loop invariant: a start requests one
callback, a pause cancels the one that is pending. -/
theorem startStop_pendingInv (perfNow : α) (w : World α) (h : PendingInv w) :
    PendingInv (startStop perfNow w) := by
  rcases h with ⟨hp, hr⟩ | ⟨k, hp, hraf, hr⟩
  · simp only [startStop, hr, Bool.not_false, ↓reduceIte]
    exact tick_pendingInv none _ hp rfl
  · left
    simp [startStop, hr, hraf, cancelAnimationFrame, hp]

/-- After `resetTimer` nothing is pending and the timer is paused. -/
theorem resetTimer_paused (exp : α → α) (w : World α) (h : PendingInv w) :
    (resetTimer exp w).pending = [] ∧ (resetTimer exp w).state.running = false := by
  rcases h with ⟨hp, hr⟩ | ⟨k, hp, hraf, hr⟩
  · simp only [resetTimer, render, renderBreakButtons, renderDurationButtons, hr]
    split <;> simp [hp, hr]
  · simp only [resetTimer, render, renderBreakButtons, renderDurationButtons, hr,
      hraf, cancelAnimationFrame]
    split <;> simp [hp]

/-- The function `resetTimer` keeps the loop invariant. -/
theorem resetTimer_pendingInv (exp : α → α) (w : World α) (h : PendingInv w) :
    PendingInv (resetTimer exp w) :=
  Or.inl (resetTimer_paused exp w h)

/-- An animation frame keeps the loop invariant: the one pending callback,
if any, is run, and it requests at most one successor. -/
theorem frame_pendingInv (now : α) (w : World α) (h : PendingInv w) :
    PendingInv (frame now w) := by
  rcases h with ⟨hp, hr⟩ | ⟨k, hp, hraf, hr⟩
  · rw [frame_nothing_pending now w hp]
    exact Or.inl ⟨hp, hr⟩
  · simp only [frame, hp, List.foldl_cons, List.foldl_nil, runCallback,
      List.mem_singleton, if_true]
    exact tick_pendingInv (some now) _ (by simp [hp]) hr

/-- The loop invariant holds in every reachable world. -/
theorem reachable_pendingInv (exp : α → α) (w : World α) (h : Reachable exp w) :
    PendingInv w := by
  induction h with
  | init =>
    exact resetTimer_pendingInv exp initialWorld (Or.inl ⟨rfl, rfl⟩)
  | step a _ hstep ih =>
    cases a with
    | clickDuration d =>
      simp only [step] at hstep
      split_ifs at hstep
      cases hstep
      refine resetTimer_pendingInv exp _ ?_
      exact ih
    | clickBreak b =>
      simp only [step] at hstep
      split_ifs at hstep
      cases hstep
      simp only [selectBreak, renderBreakButtons]
      split <;> exact ih
    | clickNoBreak =>
      simp only [step] at hstep
      cases hstep
      simp only [selectNoBreak, renderBreakButtons]
      split <;> exact ih
    | clickStartStop perfNow =>
      simp only [step] at hstep
      cases hstep
      exact startStop_pendingInv perfNow _ ih
    | clickReset =>
      simp only [step] at hstep
      cases hstep
      exact resetTimer_pendingInv exp _ ih
    | typeTask text =>
      simp only [step] at hstep
      cases hstep
      exact ih
    | submitTask dateNow =>
      simp only [step] at hstep
      cases hstep
      simp only [addTask]
      split_ifs <;> exact ih
    | toggleTask id =>
      simp only [step] at hstep
      cases hstep
      exact ih
    | animationFrame now =>
      simp only [step] at hstep
      cases hstep
      exact frame_pendingInv now _ ih

/-- C10: with the pending animation-frame callbacks as explicit state, in
every world reachable from `init` (so after every `startStop`, `resetTimer`,
`handleDurationChange` and frame tick) a callback is pending if and only if
`running` is true, at most one is pending, and `tick` changes nothing when
`running` is false.  Hence after a pause, a reset or a duration change
nothing is pending, and the next animation frame leaves the world as it
is. -/
theorem pending_iff_running (exp : α → α) (w : World α) (h : Reachable exp w) :
    (w.pending ≠ [] ↔ w.state.running = true) ∧
    w.pending.length ≤ 1 ∧
    (∀ now : Option α, w.state.running = false → tick now w = w) ∧
    (∀ perfNow now : α, w.state.running = true →
      (startStop perfNow w).pending = [] ∧
      frame now (startStop perfNow w) = startStop perfNow w) ∧
    (∀ now : α, (resetTimer exp w).pending = [] ∧
      frame now (resetTimer exp w) = resetTimer exp w) ∧
    (∀ (d : ℕ) (now : α), (handleDurationChange exp d w).pending = [] ∧
      frame now (handleDurationChange exp d w) = handleDurationChange exp d w) := by
  have hinv := reachable_pendingInv exp w h
  refine ⟨?_, ?_, fun now hr => tick_paused now w hr, ?_, ?_, ?_⟩
  · rcases hinv with ⟨hp, hr⟩ | ⟨k, hp, _, hr⟩
    · simp [hp, hr]
    · simp [hp, hr]
  · rcases hinv with ⟨hp, _⟩ | ⟨k, hp, _, _⟩ <;> simp [hp]
  · intro perfNow now hr
    rcases hinv with ⟨_, hr'⟩ | ⟨k, hp, hraf, _⟩
    · rw [hr] at hr'
      exact absurd hr' (by simp)
    · have hnil : (startStop perfNow w).pending = [] := by
        simp [startStop, hr, hraf, cancelAnimationFrame, hp]
      exact ⟨hnil, frame_nothing_pending now _ hnil⟩
  · intro now
    have hnil := (resetTimer_paused exp w hinv).1
    exact ⟨hnil, frame_nothing_pending now _ hnil⟩
  · intro d now
    have hinv' : PendingInv
        ({ w with state := { w.state with selectedMinutes := d } } : World α) := hinv
    have hnil : (handleDurationChange exp d w).pending = [] :=
      (resetTimer_paused exp _ hinv').1
    exact ⟨hnil, frame_nothing_pending now _ hnil⟩

/-- C10 at a concrete world: after the first click on Start the timer runs
and exactly one callback is pending; after a second click nothing is. -/
theorem pending_iff_running_witness :
    Reachable approxExp (startStop 0 (init approxExp)) ∧
    (startStop 0 (init approxExp)).state.running = true ∧
    ((startStop 0 (init approxExp)).pending ≠ [] ↔
      (startStop 0 (init approxExp)).state.running = true) ∧
    (startStop 0 (init approxExp)).pending.length ≤ 1 ∧
    (startStop 5 (startStop 0 (init approxExp))).pending = [] := by
  have hreach : Reachable approxExp (startStop 0 (init approxExp)) :=
    Reachable.step (Action.clickStartStop 0) Reachable.init rfl
  have hrun : (startStop 0 (init approxExp)).state.running = true := by
    simp [startStop, tick_eq, init, resetTimer, render, renderBreakButtons,
      renderDurationButtons, initialWorld, BREAK_RECOMMENDATIONS, JSNum.ofArg, JSNum.sub,
      JSNum.map, JSNum.max0, JSNum.ge, requestAnimationFrame]
  have h := pending_iff_running approxExp _ hreach
  exact ⟨hreach, hrun, h.1, h.2.1, (h.2.2.2.1 5 0 hrun).1⟩

end Loop

section Selectors

variable {α : Type} [LinearOrderedField α] [FloorRing α]

/-- Every entry of `DURATIONS` is a key of `BREAK_RECOMMENDATIONS`. -/
theorem durations_have_recommendations :
    ∀ d ∈ DURATIONS, (BREAK_RECOMMENDATIONS d).isSome = true := by
  decide

/-- The function `renderBreakButtons` as one record update. -/
theorem renderBreakButtons_eq (w : World α) :
    renderBreakButtons w =
      { w with breakButtons := (BREAK_RECOMMENDATIONS w.state.selectedMinutes).getD [] } := by
  unfold renderBreakButtons
  split <;> simp [*]

/-- The function `renderBreakButtons` leaves `state` alone. -/
theorem renderBreakButtons_state (w : World α) :
    (renderBreakButtons w).state = w.state := by
  unfold renderBreakButtons
  split <;> rfl

/-- The function `renderBreakButtons` leaves the duration buttons alone. -/
theorem renderBreakButtons_durationButtons (w : World α) :
    (renderBreakButtons w).durationButtons = w.durationButtons := by
  unfold renderBreakButtons
  split <;> rfl

/-- The buttons `renderBreakButtons` puts on the page. -/
theorem renderBreakButtons_breakButtons (w : World α) :
    (renderBreakButtons w).breakButtons =
      (BREAK_RECOMMENDATIONS w.state.selectedMinutes).getD [] := by
  unfold renderBreakButtons
  split <;> simp [*]

/-- What `resetTimer` does to the selectors and the buttons. -/
theorem resetTimer_selection (exp : α → α) (w : World α) :
    (resetTimer exp w).state.selectedMinutes = w.state.selectedMinutes ∧
    (resetTimer exp w).state.breakMinutes = none ∧
    (resetTimer exp w).durationButtons = DURATIONS ∧
    (resetTimer exp w).breakButtons =
      (BREAK_RECOMMENDATIONS w.state.selectedMinutes).getD [] := by
  cases hr : w.state.running <;> cases hraf : w.rafRef <;>
    simp [resetTimer, render, renderBreakButtons_state,
      renderBreakButtons_durationButtons, renderBreakButtons_breakButtons,
      renderDurationButtons, cancelAnimationFrame, hr, hraf]

/-- After `resetTimer` on a supported duration the selectors are within what
the page offers. -/
theorem resetTimer_selectionInv (exp : α → α) (w : World α)
    (hd : w.state.selectedMinutes ∈ DURATIONS) : SelectionInv (resetTimer exp w) := by
  obtain ⟨h1, h2, h3, h4⟩ := resetTimer_selection exp w
  have hsome := durations_have_recommendations _ hd
  obtain ⟨recs, hrecs⟩ := Option.isSome_iff_exists.mp hsome
  refine ⟨h3, by rw [h1]; exact hd, recs, by rw [h1]; exact hrecs, ?_, Or.inl h2⟩
  rw [h4, hrecs]
  rfl

/-- A click on a break button or on No-break keeps the selectors within what
the page offers. -/
theorem renderBreakButtons_selectionInv (w : World α) (b : Option ℕ)
    (h : SelectionInv w)
    (hb : b = none ∨ b = some 0 ∨ ∃ c ∈ w.breakButtons, b = some c) :
    SelectionInv
      (renderBreakButtons { w with state := { w.state with breakMinutes := b } }) := by
  obtain ⟨h1, h2, recs, h3, h4, _⟩ := h
  refine ⟨?_, ?_, recs, ?_, ?_, ?_⟩
  · rw [renderBreakButtons_durationButtons]
    exact h1
  · rw [renderBreakButtons_state]
    exact h2
  · rw [renderBreakButtons_state]
    exact h3
  · rw [renderBreakButtons_breakButtons]
    simp [h3]
  · rw [renderBreakButtons_state]
    rw [h4] at hb
    exact hb

/-- A world that agrees with one of the invariant on the selectors and the
buttons satisfies the invariant too. -/
theorem selectionInv_of_same (w v : World α) (h : SelectionInv w)
    (hs : v.state.selectedMinutes = w.state.selectedMinutes ∧
      v.state.breakMinutes = w.state.breakMinutes ∧
      v.durationButtons = w.durationButtons ∧
      v.breakButtons = w.breakButtons) : SelectionInv v := by
  obtain ⟨e1, e2, e3, e4⟩ := hs
  unfold SelectionInv
  rw [e1, e2, e3, e4]
  exact h

/-- The function `startStop` leaves the selectors and the buttons alone. -/
theorem startStop_selection (perfNow : α) (w : World α) :
    (startStop perfNow w).state.selectedMinutes = w.state.selectedMinutes ∧
    (startStop perfNow w).state.breakMinutes = w.state.breakMinutes ∧
    (startStop perfNow w).durationButtons = w.durationButtons ∧
    (startStop perfNow w).breakButtons = w.breakButtons := by
  simp only [startStop]
  split_ifs
  · exact tick_selection none _
  · cases hraf : w.rafRef <;> simp [cancelAnimationFrame, hraf]

/-- The selector invariant holds in every reachable world. -/
theorem reachable_selectionInv (exp : α → α) (w : World α) (h : Reachable exp w) :
    SelectionInv w := by
  induction h with
  | init =>
    exact resetTimer_selectionInv exp initialWorld (by simp [initialWorld, DURATIONS])
  | step a _ hstep ih =>
    cases a with
    | clickDuration d =>
      simp only [step] at hstep
      split_ifs at hstep with hd
      cases hstep
      rw [ih.1] at hd
      exact resetTimer_selectionInv exp _ hd
    | clickBreak b =>
      simp only [step] at hstep
      split_ifs at hstep with hb
      cases hstep
      exact renderBreakButtons_selectionInv _ (some b) ih (Or.inr (Or.inr ⟨b, hb, rfl⟩))
    | clickNoBreak =>
      simp only [step] at hstep
      cases hstep
      exact renderBreakButtons_selectionInv _ (some 0) ih (Or.inr (Or.inl rfl))
    | clickStartStop perfNow =>
      simp only [step] at hstep
      cases hstep
      exact selectionInv_of_same _ _ ih (startStop_selection perfNow _)
    | clickReset =>
      simp only [step] at hstep
      cases hstep
      exact resetTimer_selectionInv exp _ ih.2.1
    | typeTask text =>
      simp only [step] at hstep
      cases hstep
      exact ih
    | submitTask dateNow =>
      simp only [step] at hstep
      cases hstep
      simp only [addTask]
      split_ifs
      · exact ih
      · exact ih
    | toggleTask id =>
      simp only [step] at hstep
      cases hstep
      exact ih
    | animationFrame now =>
      simp only [step] at hstep
      cases hstep
      exact selectionInv_of_same _ _ ih (frame_selection now _)

/-- C9: in every world reachable through the input surface the selected
duration is a member of `DURATIONS`, its entry in `BREAK_RECOMMENDATIONS`
is defined and is what the break buttons on the page offer, and the break
selection is `null`, the No-break value `0`, or one of the recommendations
of the selected duration. -/
theorem selection_within_offers (exp : α → α) (w : World α) (h : Reachable exp w) :
    w.state.selectedMinutes ∈ DURATIONS ∧
    ∃ recommendations : List ℕ,
      BREAK_RECOMMENDATIONS w.state.selectedMinutes = some recommendations ∧
      w.breakButtons = recommendations ∧
      (w.state.breakMinutes = none ∨ w.state.breakMinutes = some 0 ∨
        ∃ b ∈ recommendations, w.state.breakMinutes = some b) :=
  (reachable_selectionInv exp w h).2

/-- C9, the example of the specification: after a click on the 90-minute
button the page offers the breaks 15 and 20 (and No-break), and a click on 20
selects it. -/
theorem selection_within_offers_witness :
    Reachable approxExp (selectBreak 20 (handleDurationChange approxExp 90 (init approxExp))) ∧
    (selectBreak 20 (handleDurationChange approxExp 90 (init approxExp))).state.selectedMinutes
      ∈ DURATIONS ∧
    (selectBreak 20 (handleDurationChange approxExp 90 (init approxExp))).breakButtons
      = [15, 20] ∧
    BREAK_RECOMMENDATIONS 90 = some [15, 20] := by
  have h90 : Reachable approxExp (handleDurationChange approxExp 90 (init approxExp)) :=
    Reachable.step (Action.clickDuration 90) Reachable.init
      (by simp [step, (resetTimer_selection approxExp initialWorld).2.2.1, init, DURATIONS])
  have hb : (handleDurationChange approxExp 90 (init approxExp)).breakButtons = [15, 20] := by
    unfold handleDurationChange
    rw [(resetTimer_selection approxExp _).2.2.2]
    rfl
  have hreach : Reachable approxExp
      (selectBreak 20 (handleDurationChange approxExp 90 (init approxExp))) :=
    Reachable.step (Action.clickBreak 20) h90 (by simp [step, hb])
  obtain ⟨hd, recs, hrecs, hbtn, _⟩ := selection_within_offers approxExp _ hreach
  have hsel : (selectBreak 20
      (handleDurationChange approxExp 90 (init approxExp))).state.selectedMinutes = 90 := by
    unfold selectBreak
    rw [renderBreakButtons_state]
    exact (resetTimer_selection approxExp _).1
  rw [hsel] at hrecs
  have h9020 : BREAK_RECOMMENDATIONS 90 = some [15, 20] := rfl
  refine ⟨hreach, hd, ?_, h9020⟩
  rw [hbtn]
  rw [h9020] at hrecs
  exact (Option.some.inj hrecs).symm

end Selectors

section Countdown

/-- The world after `init`, spelled out on the fields the timer uses. -/
theorem init_timer_fields :
    (init approxExp).state.running = false ∧
    (init approxExp).state.selectedMinutes = 30 ∧
    (init approxExp).state.sessionsCompleted = 0 ∧
    (init approxExp).pending = [] ∧
    (init approxExp).rafRef = none ∧
    (init approxExp).nextHandle = 1 := by
  simp [init, resetTimer, render, renderBreakButtons_eq, renderDurationButtons,
    initialWorld]

/-- C4, evaluated: right after the first click on Start, `secondsLeft` and
`elapsed` are both `NaN` (the handler calls `tick()` without a timestamp), and
they stay so when Pause is clicked before the next animation frame; neither
is a number of `[0, selectedMinutes * 60]`. -/
theorem start_leaves_nan :
    Reachable approxExp (startStop 0 (init approxExp)) ∧
    (startStop 0 (init approxExp)).state.secondsLeft = JSNum.nan ∧
    (startStop 0 (init approxExp)).state.elapsed = JSNum.nan ∧
    Reachable approxExp (startStop 5 (startStop 0 (init approxExp))) ∧
    (startStop 5 (startStop 0 (init approxExp))).state.running = false ∧
    (startStop 5 (startStop 0 (init approxExp))).state.secondsLeft = JSNum.nan ∧
    (startStop 5 (startStop 0 (init approxExp))).state.elapsed = JSNum.nan := by
  have h1 : Reachable approxExp (startStop 0 (init approxExp)) :=
    Reachable.step (Action.clickStartStop 0) Reachable.init rfl
  have h2 : Reachable approxExp (startStop 5 (startStop 0 (init approxExp))) :=
    Reachable.step (Action.clickStartStop 5) h1 rfl
  obtain ⟨hr, -, -, hp, hraf, hn⟩ := init_timer_fields
  refine ⟨h1, ?_, ?_, h2, ?_, ?_, ?_⟩ <;>
    simp [startStop, tick_eq, hr, hp, hraf, hn, JSNum.ofArg, JSNum.sub, JSNum.map,
      JSNum.max0, JSNum.ceil, JSNum.ge, requestAnimationFrame, cancelAnimationFrame]

/-- C3, evaluated: a five-minute timer is started at clock reading `0` and
ticks at `60000`, so `elapsed` is 60 and `secondsLeft` is 240.  Pause and
resume at that same reading: immediately after the resume both are `NaN`, not
60 and 240; the frame tick at the resume instant then restores 60 and 240. -/
theorem resume_leaves_nan_until_next_frame :
    (frame 60000 (startStop 0 (handleDurationChange approxExp 5
        (init approxExp)))).state.running = true ∧
    (frame 60000 (startStop 0 (handleDurationChange approxExp 5
        (init approxExp)))).state.elapsed = JSNum.num 60 ∧
    (frame 60000 (startStop 0 (handleDurationChange approxExp 5
        (init approxExp)))).state.secondsLeft = JSNum.num 240 ∧
    (startStop 60000 (startStop 60000 (frame 60000 (startStop 0
        (handleDurationChange approxExp 5 (init approxExp)))))).state.elapsed
      = JSNum.nan ∧
    (startStop 60000 (startStop 60000 (frame 60000 (startStop 0
        (handleDurationChange approxExp 5 (init approxExp)))))).state.secondsLeft
      = JSNum.nan ∧
    (frame 60000 (startStop 60000 (startStop 60000 (frame 60000 (startStop 0
        (handleDurationChange approxExp 5 (init approxExp))))))).state.elapsed
      = JSNum.num 60 ∧
    (frame 60000 (startStop 60000 (startStop 60000 (frame 60000 (startStop 0
        (handleDurationChange approxExp 5 (init approxExp))))))).state.secondsLeft
      = JSNum.num 240 := by
  obtain ⟨hr, -, -, hp, hraf, hn⟩ := init_timer_fields
  refine ⟨?_, ?_, ?_, ?_, ?_, ?_, ?_⟩ <;>
    norm_num [frame, runCallback, startStop, tick_eq, handleDurationChange, resetTimer,
      render, renderBreakButtons_eq, renderDurationButtons,
      hr, hp, hraf, hn, JSNum.ofArg, JSNum.sub, JSNum.map,
      JSNum.max0, JSNum.ceil, JSNum.ge, requestAnimationFrame, cancelAnimationFrame]

/-- C2, evaluated: a five-minute timer started at clock reading `0` completes
at the frame of `300000` (one session, one celebration, paused).  Start is
clicked again at `300000`, with no reset and no duration change; the frame of
`300016` completes a second time: `sessionsCompleted` and the number of
celebrations are both 2. -/
theorem restart_after_completion_counts_again :
    (frame 300000 (startStop 0 (handleDurationChange approxExp 5
        (init approxExp)))).state.sessionsCompleted = 1 ∧
    (frame 300000 (startStop 0 (handleDurationChange approxExp 5
        (init approxExp)))).celebrations = 1 ∧
    (frame 300000 (startStop 0 (handleDurationChange approxExp 5
        (init approxExp)))).state.running = false ∧
    (frame 300016 (startStop 300000 (frame 300000 (startStop 0
        (handleDurationChange approxExp 5 (init approxExp)))))).state.sessionsCompleted
      = 2 ∧
    (frame 300016 (startStop 300000 (frame 300000 (startStop 0
        (handleDurationChange approxExp 5 (init approxExp)))))).celebrations = 2 := by
  obtain ⟨hr, -, hs, hp, hraf, hn⟩ := init_timer_fields
  have hc : (init approxExp).celebrations = 0 := by
    simp [init, resetTimer, render, renderBreakButtons_eq, renderDurationButtons,
      initialWorld]
  refine ⟨?_, ?_, ?_, ?_, ?_⟩ <;>
    norm_num [frame, runCallback, startStop, tick_eq, handleDurationChange, resetTimer,
      render, renderBreakButtons_eq, renderDurationButtons,
      hr, hp, hraf, hn, hs, hc, JSNum.ofArg, JSNum.sub, JSNum.map,
      JSNum.max0, JSNum.ceil, JSNum.ge, requestAnimationFrame, cancelAnimationFrame,
      triggerCelebration]

/-- A frame has every property that ticks preserve and that does not depend
on the list of pending callbacks. -/
theorem frame_preserves {α : Type} [LinearOrderedField α] [FloorRing α]
    (P : World α → Prop)
    (htick : ∀ (now : Option α) (w : World α), P w → P (tick now w))
    (hpending : ∀ (w : World α) (l : List ℕ), P w → P { w with pending := l })
    (now : α) (w : World α) (h : P w) : P (frame now w) := by
  have key : ∀ (l : List ℕ) (v : World α), P v → P (l.foldl (runCallback now) v) := by
    intro l
    induction l with
    | nil => intro v hv; exact hv
    | cons k t ih =>
      intro v hv
      simp only [List.foldl_cons]
      apply ih
      unfold runCallback
      split_ifs
      · exact htick _ _ (hpending _ _ hv)
      · exact hv
  exact key w.pending w h

/-- A tick keeps the countdown invariant. -/
theorem tick_timerInv {α : Type} [LinearOrderedField α] [FloorRing α]
    (now : Option α) (w : World α) (h : TimerInv w) : TimerInv (tick now w) := by
  rw [tick_eq]
  split_ifs with hr hge
  · exact h
  · right
    refine ⟨(w.state.selectedMinutes : α) * 60, rfl, by positivity, le_refl _, ?_⟩
    simp [triggerCelebration]
  · cases hel : JSNum.max0 (((JSNum.ofArg now).sub w.startTimestamp).map
        (fun x => x / 1000)) with
    | nan =>
      left
      simp [requestAnimationFrame, hel, JSNum.sub, JSNum.ceil, JSNum.max0]
    | num e =>
      right
      have he0 : 0 ≤ e := by
        cases hx : ((JSNum.ofArg now).sub w.startTimestamp).map (fun x => x / 1000) with
        | nan => simp [hx, JSNum.max0] at hel
        | num x =>
          simp only [hx, JSNum.max0, JSNum.num.injEq] at hel
          rw [← hel]
          exact le_max_left _ _
      have hlt : e < (w.state.selectedMinutes : α) * 60 := by
        simp only [hel, JSNum.ge, decide_eq_true_eq, not_le] at hge
        exact hge
      have hpos : 0 < (w.state.selectedMinutes : α) * 60 - e := sub_pos.mpr hlt
      have hceil : (0 : ℤ) < ⌈(w.state.selectedMinutes : α) * 60 - e⌉ :=
        Int.ceil_pos.mpr hpos
      have hceil' : (0 : α) ≤ ((⌈(w.state.selectedMinutes : α) * 60 - e⌉ : ℤ) : α) := by
        exact_mod_cast hceil.le
      refine ⟨e, by simp [requestAnimationFrame, hel], he0, by
        simpa [requestAnimationFrame] using hlt.le, ?_⟩
      simp [requestAnimationFrame, hel, JSNum.sub, JSNum.ceil, JSNum.max0,
        max_eq_right hpos.le, max_eq_right hceil']

/-- The function `resetTimer` establishes the countdown invariant. -/
theorem resetTimer_timerInv {α : Type} [LinearOrderedField α] [FloorRing α]
    (exp : α → α) (w : World α) : TimerInv (resetTimer exp w) := by
  right
  have hnat : ((⌈(((w.state.selectedMinutes * 60 : ℕ) : ℤ) : α)⌉ : ℤ) : α) =
      (w.state.selectedMinutes : α) * 60 := by
    rw [Int.ceil_intCast]
    push_cast
    rfl
  have hpos : (0 : α) ≤ (w.state.selectedMinutes : α) * 60 := by positivity
  refine ⟨0, ?_, le_refl _, ?_, ?_⟩
  · cases hr : w.state.running <;> cases hraf : w.rafRef <;>
      simp [resetTimer, render, renderBreakButtons_eq, renderDurationButtons,
        cancelAnimationFrame, hr, hraf]
  · cases hr : w.state.running <;> cases hraf : w.rafRef <;>
      simp [resetTimer, render, renderBreakButtons_eq, renderDurationButtons,
        cancelAnimationFrame, hr, hraf]
  · have hmax : max 0 ((w.state.selectedMinutes : α) * 60 - 0) =
        (((w.state.selectedMinutes * 60 : ℕ) : ℤ) : α) := by
      rw [sub_zero, max_eq_right hpos]
      push_cast
      rfl
    cases hr : w.state.running <;> cases hraf : w.rafRef <;>
      simp only [resetTimer, render, renderBreakButtons_eq, renderDurationButtons,
        cancelAnimationFrame, hr, hraf] <;>
      simp only [Bool.false_eq_true, if_false, if_true] <;>
      rw [hmax, hnat]

/-- The countdown invariant holds in every reachable world: apart from the
`NaN` that `startStop` leaves behind, `secondsLeft` is
`ceil(max(0, selectedMinutes * 60 - elapsed))` with `elapsed` in
`[0, selectedMinutes * 60]`. -/
theorem reachable_timerInv {α : Type} [LinearOrderedField α] [FloorRing α]
    (exp : α → α) (w : World α) (h : Reachable exp w) : TimerInv w := by
  induction h with
  | init => exact resetTimer_timerInv exp initialWorld
  | step a _ hstep ih =>
    cases a with
    | clickDuration d =>
      simp only [step] at hstep
      split_ifs at hstep
      cases hstep
      exact resetTimer_timerInv exp _
    | clickBreak b =>
      simp only [step] at hstep
      split_ifs at hstep
      cases hstep
      simp only [selectBreak, renderBreakButtons_eq]
      exact ih
    | clickNoBreak =>
      simp only [step] at hstep
      cases hstep
      simp only [selectNoBreak, renderBreakButtons_eq]
      exact ih
    | clickStartStop perfNow =>
      simp only [step] at hstep
      cases hstep
      simp only [startStop]
      split_ifs
      · exact tick_timerInv none _ ih
      · cases hraf : (_ : World α).rafRef <;> simp only [cancelAnimationFrame, hraf] <;>
          exact ih
    | clickReset =>
      simp only [step] at hstep
      cases hstep
      exact resetTimer_timerInv exp _
    | typeTask text =>
      simp only [step] at hstep
      cases hstep
      exact ih
    | submitTask dateNow =>
      simp only [step] at hstep
      cases hstep
      simp only [addTask]
      split_ifs <;> exact ih
    | toggleTask id =>
      simp only [step] at hstep
      cases hstep
      exact ih
    | animationFrame now =>
      simp only [step] at hstep
      cases hstep
      exact frame_preserves TimerInv tick_timerInv (fun _ _ hv => hv) now _ ih

/-- Pause and resume at one clock reading `p`, then the frame tick at `p`:
the elapsed time of before the pause is back, and the remaining time is its
ceiling complement. -/
theorem pause_resume_then_frame {α : Type} [LinearOrderedField α] [FloorRing α]
    (p e : α) (k : ℕ) (w : World α)
    (hrun : w.state.running = true) (hp : w.pending = [k]) (hraf : w.rafRef = some k)
    (he : w.state.elapsed = JSNum.num e) (h0 : 0 ≤ e)
    (hlt : e < (w.state.selectedMinutes : α) * 60) :
    (frame p (startStop p (startStop p w))).state.elapsed = JSNum.num e ∧
    (frame p (startStop p (startStop p w))).state.secondsLeft =
      JSNum.num ((⌈(w.state.selectedMinutes : α) * 60 - e⌉ : ℤ) : α) ∧
    (frame p (startStop p (startStop p w))).state.running = true := by
  have harith : (p - (p - e * 1000)) / 1000 = e := by ring
  have hpos : 0 < (w.state.selectedMinutes : α) * 60 - e := sub_pos.mpr hlt
  have hceil : (0 : α) ≤ ((⌈(w.state.selectedMinutes : α) * 60 - e⌉ : ℤ) : α) := by
    exact_mod_cast (Int.ceil_pos.mpr hpos).le
  have hnot : ¬ (w.state.selectedMinutes : α) * 60 ≤ e := not_le.mpr hlt
  refine ⟨?_, ?_, ?_⟩ <;>
    simp [frame, runCallback, startStop, tick_eq, hrun, hp, hraf, he, JSNum.ofArg,
      JSNum.sub, JSNum.map, JSNum.max0, JSNum.ceil, JSNum.ge, requestAnimationFrame,
      cancelAnimationFrame, harith, max_eq_right h0, max_eq_right hceil, hnot]

end Countdown

section Curve

variable {α : Type} [LinearOrderedField α]

/-- Folding `max` over a list from `a`: the result is above `a` and above
every entry, and it is `a` or one of the entries. -/
theorem foldl_max_spec (l : List α) (a : α) :
    a ≤ l.foldl max a ∧ (∀ y ∈ l, y ≤ l.foldl max a) ∧
      (l.foldl max a = a ∨ l.foldl max a ∈ l) := by
  induction l generalizing a with
  | nil => simp
  | cons b t ih =>
    simp only [List.foldl_cons]
    obtain ⟨h1, h2, h3⟩ := ih (max a b)
    refine ⟨le_trans (le_max_left a b) h1, ?_, ?_⟩
    · intro y hy
      rcases List.mem_cons.mp hy with rfl | hy
      · exact le_trans (le_max_right a y) h1
      · exact h2 y hy
    · rcases h3 with h | h
      · rcases max_choice a b with hm | hm
        · left
          rw [h, hm]
        · right
          rw [h, hm]
          exact List.mem_cons_self _ _
      · right
        exact List.mem_cons_of_mem _ h

/-- On a list that is not empty `maxOf` is an entry above all entries. -/
theorem maxOf_spec (l : List α) (hl : l ≠ []) :
    maxOf l ∈ l ∧ ∀ y ∈ l, y ≤ maxOf l := by
  cases l with
  | nil => exact absurd rfl hl
  | cons a t =>
    obtain ⟨h1, h2, h3⟩ := foldl_max_spec t a
    refine ⟨?_, ?_⟩
    · show t.foldl max a ∈ a :: t
      rcases h3 with h | h
      · rw [h]
        exact List.mem_cons_self _ _
      · exact List.mem_cons_of_mem _ h
    · intro y hy
      show y ≤ t.foldl max a
      rcases List.mem_cons.mp hy with rfl | hy
      · exact h1
      · exact h2 y hy

/-- A sum of positive terms accumulated from `a` stays above `a`, strictly
when there is at least one term. -/
theorem foldl_add_pos (f : ℕ → α) (hf : ∀ p, 0 < f p) (l : List ℕ) (a : α) :
    a ≤ l.foldl (fun y p => y + f p) a ∧
      (l ≠ [] → a < l.foldl (fun y p => y + f p) a) := by
  induction l generalizing a with
  | nil => simp
  | cons b t ih =>
    simp only [List.foldl_cons]
    obtain ⟨h1, _⟩ := ih (a + f b)
    have hlt : a < a + f b := lt_add_of_pos_right a (hf b)
    exact ⟨le_trans hlt.le h1, fun _ => lt_of_lt_of_le hlt h1⟩

/-- The inner loop of the sampler returns a positive sum when `Math.exp` is
positive and there is at least one peak. -/
theorem bumpSum_pos (exp : α → α) (hexp : ∀ x, 0 < exp x) (tMax : α) (peaks : ℕ)
    (hp : 0 < peaks) (t : α) : 0 < bumpSum exp tMax peaks t := by
  have h := (foldl_add_pos
    (fun p : ℕ => exp (-(((t - (((p : α) + 1) / ((peaks : α) + 1)) * tMax) /
      (tMax / ((peaks : α) * 3.5))) ^ 2))) (fun p => hexp _) (List.range peaks) 0).2
    (by
      intro h
      rw [List.range_eq_nil] at h
      omega)
  exact h

/-- The peak count is at least one. -/
theorem peaksFor_pos (minutes : ℕ) : 0 < peaksFor minutes := by
  unfold peaksFor
  split_ifs <;> norm_num

/-- Every point pushed by the outer loop has a positive `y`. -/
theorem rawPoint_y_pos (exp : α → α) (hexp : ∀ x, 0 < exp x) (d n i : ℕ)
    (hd : 0 < d) (hn : 0 < n) (hi : i ≤ n) : 0 < (rawPoint exp d n i).y := by
  have htMax : ((d : α) * 60) ≠ 0 := by
    have : (0 : α) < d := by exact_mod_cast hd
    positivity
  have hn' : (0 : α) < n := by exact_mod_cast hn
  have hfrac : ((i : α) / (n : α)) * ((d : α) * 60) / ((d : α) * 60) = (i : α) / n := by
    field_simp
    ring
  have hle : (i : α) / n ≤ 1 := by
    rw [div_le_one hn']
    exact_mod_cast hi
  have hb := bumpSum_pos exp hexp ((d : α) * 60) (peaksFor d) (peaksFor_pos d)
    (((i : α) / (n : α)) * ((d : α) * 60))
  show 0 < bumpSum exp ((d : α) * 60) (peaksFor d) (((i : α) / (n : α)) * ((d : α) * 60)) *
    (1 - 0.15 * (((i : α) / (n : α)) * ((d : α) * 60) / ((d : α) * 60)))
  rw [hfrac]
  have hfac : (0 : α) < 1 - 0.15 * ((i : α) / n) := by
    have : (0.15 : α) * ((i : α) / n) ≤ 0.15 * 1 :=
      mul_le_mul_of_nonneg_left hle (by norm_num)
    have h15 : (0.15 : α) * 1 < 1 := by norm_num
    linarith
  exact mul_pos hb hfac

/-- The sampler over any ordered field in which `Math.exp` is positive: it
returns `samples + 1` points, the abscissas are `i / samples`, every ordinate
is in `[0, 1]`, and one of them is `1`. -/
theorem sampleProductivityCurve_spec (exp : α → α) (hexp : ∀ x, 0 < exp x) (d n : ℕ)
    (hd : 0 < d) (hn : 0 < n) :
    (sampleProductivityCurve exp d n).length = n + 1 ∧
    (sampleProductivityCurve exp d n).map (fun p => p.x) =
      (List.range (n + 1)).map (fun i : ℕ => (i : α) / (n : α)) ∧
    (∀ p ∈ sampleProductivityCurve exp d n, 0 ≤ p.y ∧ p.y ≤ 1) ∧
    (∃ p ∈ sampleProductivityCurve exp d n, p.y = 1) := by
  have hne : ((List.range (n + 1)).map (rawPoint exp d n)).map (fun p => p.y) ≠ [] := by
    simp
  obtain ⟨hmem, hmax⟩ := maxOf_spec _ hne
  have hpos : ∀ y ∈ ((List.range (n + 1)).map (rawPoint exp d n)).map (fun p => p.y),
      0 < y := by
    intro y hy
    simp only [List.mem_map, List.mem_range] at hy
    obtain ⟨p, ⟨i, hi, rfl⟩, rfl⟩ := hy
    exact rawPoint_y_pos exp hexp d n i hd hn (by omega)
  have hmaxpos := hpos _ hmem
  refine ⟨by simp [sampleProductivityCurve], ?_, ?_, ?_⟩
  · simp only [sampleProductivityCurve, List.map_map]
    apply List.map_congr_left
    intro i _
    rfl
  · intro p hp
    simp only [sampleProductivityCurve, List.mem_map] at hp
    obtain ⟨q, hq, rfl⟩ := hp
    have hqy : q.y ∈ ((List.range (n + 1)).map (rawPoint exp d n)).map (fun p => p.y) :=
      List.mem_map.mpr ⟨q, List.mem_map.mpr hq, rfl⟩
    exact ⟨div_nonneg (hpos _ hqy).le hmaxpos.le, (div_le_one hmaxpos).mpr (hmax _ hqy)⟩
  · obtain ⟨q, hq, hqy⟩ := List.mem_map.mp hmem
    refine ⟨⟨q.x, q.y / maxOf
      (((List.range (n + 1)).map (rawPoint exp d n)).map (fun p => p.y))⟩, ?_, ?_⟩
    · simp only [sampleProductivityCurve]
      exact List.mem_map.mpr ⟨q, hq, rfl⟩
    · show q.y / _ = 1
      rw [hqy]
      exact div_self hmaxpos.ne'

/-- The abscissas `i / n` for `i = 0, ..., n` increase strictly, start at `0`
and end at `1`. -/
theorem abscissas_increasing (n : ℕ) (hn : 0 < n) :
    ((List.range (n + 1)).map (fun i : ℕ => (i : α) / (n : α))).Pairwise (· < ·) ∧
    ((List.range (n + 1)).map (fun i : ℕ => (i : α) / (n : α))).head? = some 0 ∧
    ((List.range (n + 1)).map (fun i : ℕ => (i : α) / (n : α))).getLast? = some 1 := by
  have hn' : (0 : α) < n := by exact_mod_cast hn
  refine ⟨?_, ?_, ?_⟩
  · rw [List.pairwise_map]
    refine (List.pairwise_lt_range (n + 1)).imp ?_
    intro a b hab
    exact div_lt_div_of_pos_right (by exact_mod_cast hab) hn'
  · simp [List.range_succ_eq_map]
  · rw [List.range_succ, List.map_append]
    simp [hn'.ne']

end Curve

/-- C6: for every supported duration `d` and every sample count `n ≥ 1`,
with arithmetic over the reals and the real exponential for `Math.exp`,
`sampleProductivityCurve(d, n)` returns `n + 1` points, the `x` of point `i`
is `i / n`, the `x` values increase strictly from `0` to `1`, every `y` lies
in `[0, 1]`, and the largest `y` is exactly `1`. -/
theorem sampleProductivityCurve_normalised (d n : ℕ) (hd : d ∈ DURATIONS) (hn : 1 ≤ n) :
    (sampleProductivityCurve Real.exp d n).length = n + 1 ∧
    (∀ i : ℕ, i ≤ n →
      ((sampleProductivityCurve Real.exp d n).map (fun p => p.x))[i]? =
        some ((i : ℝ) / (n : ℝ))) ∧
    ((sampleProductivityCurve Real.exp d n).map (fun p => p.x)).Pairwise (· < ·) ∧
    ((sampleProductivityCurve Real.exp d n).map (fun p => p.x)).head? = some 0 ∧
    ((sampleProductivityCurve Real.exp d n).map (fun p => p.x)).getLast? = some 1 ∧
    (∀ p ∈ sampleProductivityCurve Real.exp d n, 0 ≤ p.y ∧ p.y ≤ 1) ∧
    (∃ p ∈ sampleProductivityCurve Real.exp d n, p.y = 1) := by
  have hd0 : 0 < d := by
    simp only [DURATIONS, List.mem_cons, List.mem_singleton, List.not_mem_nil,
      or_false] at hd
    omega
  obtain ⟨hlen, hx, hy, hone⟩ :=
    sampleProductivityCurve_spec Real.exp Real.exp_pos d n hd0 (by omega)
  obtain ⟨hinc, hhead, hlast⟩ := @abscissas_increasing ℝ _ n (by omega)
  refine ⟨hlen, ?_, ?_, ?_, ?_, hy, hone⟩
  · intro i hi
    rw [hx]
    simp [List.getElem?_map, List.getElem?_range (show i < n + 1 by omega)]
  · rw [hx]
    exact hinc
  · rw [hx]
    exact hhead
  · rw [hx]
    exact hlast

/-- C6 at the default sample count: the 90-minute curve has 201 points and
one of them has `y = 1`. -/
theorem sampleProductivityCurve_normalised_witness :
    90 ∈ DURATIONS ∧ 1 ≤ 200 ∧
    (sampleProductivityCurve Real.exp 90 200).length = 200 + 1 ∧
    (∃ p ∈ sampleProductivityCurve Real.exp 90 200, p.y = 1) :=
  ⟨by decide, by decide,
    (sampleProductivityCurve_normalised 90 200 (by decide) (by decide)).1,
    (sampleProductivityCurve_normalised 90 200 (by decide) (by decide)).2.2.2.2.2.2⟩

end Pomodoro
